import Mathlib

/-!
Shallow embedding of the `picokey` physical-configuration codec
(`src/picokey/PhyData.py`) and the known-vendor registry it ships with.

Bytes are modelled as natural numbers; Python byte strings become
`List Nat`.  Python `bytes` (immutable) and `bytearray` (mutable) both
back the `vidpid` field, and assignment through the `vid`/`pid`
property setters raises `TypeError` on an immutable store, so the
store carries an explicit mutability flag.  Operations that can raise
in Python (`int.to_bytes` on an out-of-range value, `bytes([...])` on
a value above 255, item assignment on `bytes`) return `Option`/`none`
in the model.  Python strings are modelled as lists of Unicode code
points.
-/

/-- Backing store of the `vidpid` field: a Python `bytes`
(`mutable = false`) or `bytearray` (`mutable = true`) value. -/
structure ByteStore where
  mutable : Bool
  data : List Nat
deriving DecidableEq, Repr

/-- The `PhyData` record (`PhyData.__init__`): every field optional
except `opts`, which defaults to `0`. -/
structure PhyData where
  vidpid : Option ByteStore
  led_gpio : Option Nat
  led_brightness : Option Nat
  opts : Nat
  up_btn : Option Nat
  usb_product : Option (List Nat)
  enabled_curves : Option Nat
  enabled_usb_itf : Option Nat
  led_driver : Option Nat
deriving DecidableEq, Repr

/-- `PhyData()` with no keyword arguments. -/
def phyEmpty : PhyData :=
  { vidpid := none, led_gpio := none, led_brightness := none, opts := 0,
    up_btn := none, usb_product := none, enabled_curves := none,
    enabled_usb_itf := none, led_driver := none }

/-- Python truthiness of `self.vidpid`: a present, non-empty store. -/
def vidpidTruthy (x : PhyData) : Bool :=
  match x.vidpid with
  | some s => !s.data.isEmpty
  | none => false

/-- Python truthiness of `self.usb_product`: a present, non-empty string. -/
def productTruthy (x : PhyData) : Bool :=
  match x.usb_product with
  | some s => !s.isEmpty
  | none => false

/-- `x.to_bytes(2, "big")` for `x < 2 ^ 16` (the guard that makes
`to_bytes` raise lives at the call site). -/
def u16be (x : Nat) : List Nat := [x / 256, x % 256]

/-- `x.to_bytes(4, "big")` for `x < 2 ^ 32`. -/
def u32be (x : Nat) : List Nat :=
  [x / 16777216, x / 65536 % 256, x / 256 % 256, x % 256]

/-- `int.from_bytes(buf, "big")`. -/
def bytesToNat (l : List Nat) : Nat := l.foldl (fun a b => a * 256 + b) 0

/-- `str.encode("ascii", "ignore")` and `bytes.decode("ascii", "ignore")`:
keep exactly the code points / bytes below 128. -/
def asciiIgnore (s : List Nat) : List Nat := s.filter (fun c => decide (c < 128))

/-- Serialisation chunk for `vidpid` (`PhyData.serialize`, tag 0x0):
emitted only when the store is truthy; payload is `self.vidpid[:4]`. -/
def vidpidChunk (x : PhyData) : List Nat :=
  match x.vidpid with
  | some s => if s.data.isEmpty then [] else 0 :: 4 :: s.data.take 4
  | none => []

/-- Chunk for `led_gpio` (tag 0x4): the value is masked with `& 0xFF`. -/
def ledGpioChunk (x : PhyData) : List Nat :=
  match x.led_gpio with
  | some g => [4, 1, g % 256]
  | none => []

/-- Chunk for `led_brightness` (tag 0x5), masked with `& 0xFF`. -/
def ledBrightnessChunk (x : PhyData) : List Nat :=
  match x.led_brightness with
  | some b => [5, 1, b % 256]
  | none => []

/-- Chunk for `opts` (tag 0x6): always emitted; `to_bytes(2, "big")`
raises `OverflowError` when the value does not fit 16 bits. -/
def optsChunk (x : PhyData) : Option (List Nat) :=
  if x.opts < 65536 then some (6 :: 2 :: u16be x.opts) else none

/-- Chunk for `up_btn` (tag 0x8), masked with `& 0xFF`. -/
def upBtnChunk (x : PhyData) : List Nat :=
  match x.up_btn with
  | some u => [8, 1, u % 256]
  | none => []

/-- Chunk for `usb_product` (tag 0x9): emitted when truthy; the string
is ASCII-encoded dropping non-ASCII code points, one NUL is appended,
and the length byte is `len(s) + 1`, which `bytes([...])` rejects
above 255. -/
def productChunk (x : PhyData) : Option (List Nat) :=
  match x.usb_product with
  | some s =>
    if s.isEmpty then some []
    else
      let enc := asciiIgnore s
      if enc.length + 1 ≤ 255 then some (9 :: (enc.length + 1) :: (enc ++ [0]))
      else none
  | none => some []

/-- Chunk for `enabled_curves` (tag 0xA): `to_bytes(4, "big")` raises
when the value does not fit 32 bits. -/
def curvesChunk (x : PhyData) : Option (List Nat) :=
  match x.enabled_curves with
  | some c => if c < 4294967296 then some (10 :: 4 :: u32be c) else none
  | none => some []

/-- Chunk for `enabled_usb_itf` (tag 0xB), masked with `& 0xFF`. -/
def itfChunk (x : PhyData) : List Nat :=
  match x.enabled_usb_itf with
  | some i => [11, 1, i % 256]
  | none => []

/-- Chunk for `led_driver` (tag 0xC), masked with `& 0xFF`. -/
def driverChunk (x : PhyData) : List Nat :=
  match x.led_driver with
  | some d => [12, 1, d % 256]
  | none => []

/-- `PhyData.serialize`: the chunks above concatenated in source
order; `none` models the Python call raising. -/
def serialize (x : PhyData) : Option (List Nat) := do
  let c6 ← optsChunk x
  let c9 ← productChunk x
  let cA ← curvesChunk x
  pure (vidpidChunk x ++ ledGpioChunk x ++ ledBrightnessChunk x ++ c6 ++
        upBtnChunk x ++ c9 ++ cA ++ itfChunk x ++ driverChunk x)

/-- The tag/length pairs the `parse` dispatch recognises. -/
def Handled (t l : Nat) : Bool :=
  decide (t = 0 ∧ l = 4) || decide (t = 4 ∧ l = 1) || decide (t = 5 ∧ l = 1) ||
  decide (t = 6 ∧ l = 2) || decide (t = 8 ∧ l = 1) || decide (t = 9 ∧ 0 < l) ||
  decide (t = 10 ∧ l = 4) || decide (t = 11 ∧ l = 1) || decide (t = 12 ∧ l = 1)

/-- Decoding of a `usb_product` payload: split at the first NUL,
then ASCII-decode ignoring non-ASCII bytes. -/
def decodeProduct (payload : List Nat) : List Nat :=
  asciiIgnore (payload.takeWhile (fun b => b != 0))

/-- Effect of one recognised TLV record on the accumulator (the
dispatch chain in `PhyData.parse`); an unrecognised record leaves the
accumulator unchanged. -/
def step (o : PhyData) (t l : Nat) (payload : List Nat) : PhyData :=
  if t = 0 ∧ l = 4 then { o with vidpid := some ⟨false, payload⟩ }
  else if t = 4 ∧ l = 1 then { o with led_gpio := some (payload.headD 0) }
  else if t = 5 ∧ l = 1 then { o with led_brightness := some (payload.headD 0) }
  else if t = 6 ∧ l = 2 then { o with opts := bytesToNat payload }
  else if t = 8 ∧ l = 1 then { o with up_btn := some (payload.headD 0) }
  else if t = 9 ∧ 0 < l then { o with usb_product := some (decodeProduct payload) }
  else if t = 10 ∧ l = 4 then { o with enabled_curves := some (bytesToNat payload) }
  else if t = 11 ∧ l = 1 then { o with enabled_usb_itf := some (payload.headD 0) }
  else if t = 12 ∧ l = 1 then { o with led_driver := some (payload.headD 0) }
  else o

/-- The scanning loop of `PhyData.parse` with explicit fuel; every
iteration consumes at least two bytes, so `data.length` fuel always
suffices. -/
def parseLoop : Nat → PhyData → List Nat → PhyData
  | 0, o, _ => o
  | fuel + 1, o, t :: l :: rest =>
    if l ≤ rest.length then
      parseLoop fuel (step o t l (rest.take l)) (rest.drop l)
    else o
  | _ + 1, o, _ => o

/-- The scanning loop of `PhyData.parse` applied to a buffer. -/
def parseGo (o : PhyData) (data : List Nat) : PhyData :=
  parseLoop data.length o data

/-- The decode-time normalisation at the end of `PhyData.parse`:
`enabled_usb_itf` defaults to `CCID | WCID | HID | KB = 0xF`. -/
def defaultItf (o : PhyData) : PhyData :=
  match o.enabled_usb_itf with
  | none => { o with enabled_usb_itf := some 15 }
  | some _ => o

/-- `PhyData.parse`. -/
def parse (data : List Nat) : PhyData := defaultItf (parseGo phyEmpty data)

/-- `vars(self) == vars(other)` (`PhyData.__eq__`): Python compares the
`vidpid` values with `bytes`/`bytearray` content equality, so the
mutability flag does not participate. -/
def phyEq (a b : PhyData) : Prop :=
  a.vidpid.map ByteStore.data = b.vidpid.map ByteStore.data ∧
  a.led_gpio = b.led_gpio ∧ a.led_brightness = b.led_brightness ∧
  a.opts = b.opts ∧ a.up_btn = b.up_btn ∧ a.usb_product = b.usb_product ∧
  a.enabled_curves = b.enabled_curves ∧ a.enabled_usb_itf = b.enabled_usb_itf ∧
  a.led_driver = b.led_driver

instance : DecidablePred (fun p : PhyData × PhyData => phyEq p.1 p.2) :=
  fun _ => by unfold phyEq; infer_instance

instance (a b : PhyData) : Decidable (phyEq a b) := by unfold phyEq; infer_instance

/-- Python `a & ~b` for non-negative integers. -/
def landNot (a b : Nat) : Nat := Nat.bitwise (fun x y => x && !y) a b

/-- The `vid` property setter: on a falsy store allocate a fresh
4-byte `bytearray`; item assignment on an immutable store raises
`TypeError` (`none`).  Stores this development builds have length 4,
so the out-of-range `IndexError` case of Python never arises. -/
def setVid (x : PhyData) (v : Nat) : Option PhyData :=
  let st : ByteStore :=
    if vidpidTruthy x then x.vidpid.getD ⟨true, []⟩ else ⟨true, [0, 0, 0, 0]⟩
  if st.mutable then
    some { x with vidpid := some ⟨true, (st.data.set 0 (v / 256 % 256)).set 1 (v % 256)⟩ }
  else none

/-- The `pid` property setter, writing bytes 2 and 3. -/
def setPid (x : PhyData) (v : Nat) : Option PhyData :=
  let st : ByteStore :=
    if vidpidTruthy x then x.vidpid.getD ⟨true, []⟩ else ⟨true, [0, 0, 0, 0]⟩
  if st.mutable then
    some { x with vidpid := some ⟨true, (st.data.set 2 (v / 256 % 256)).set 3 (v % 256)⟩ }
  else none

/-- `PhyData.set_vidpid`: allocate a fresh mutable 4-byte store, then
run the `vid` and `pid` setters. -/
def set_vidpid (x : PhyData) (v p : Nat) : Option PhyData := do
  let x1 := { x with vidpid := some ⟨true, [0, 0, 0, 0]⟩ }
  let x2 ← setVid x1 v
  setPid x2 p

/-- `PhyData.copy`: field-wise copy, rebuilding a truthy `vidpid`
store as a fresh `bytearray`. -/
def copy (x : PhyData) : PhyData :=
  { x with vidpid :=
      if vidpidTruthy x then some ⟨true, (x.vidpid.getD ⟨true, []⟩).data⟩ else none }

/-- `PhyData.set_option`. -/
def setOption (x : PhyData) (opt : Nat) (enabled : Bool) : PhyData :=
  if enabled then { x with opts := x.opts ||| opt }
  else { x with opts := landNot x.opts opt }

/-- `PhyData.set_curve`: a `None` bitmask is first initialised to 0. -/
def set_curve (x : PhyData) (curve : Nat) (enabled : Bool) : PhyData :=
  let c0 := x.enabled_curves.getD 0
  { x with enabled_curves := some (if enabled then c0 ||| curve else landNot c0 curve) }

/-- `KnownVendor.get_all()` in its insertion (hence iteration) order. -/
def knownVendors : List (String × Nat × Nat) :=
  [("Nitrokey HSM", 0x20a0, 0x4230),
   ("Nitrokey FIDO2", 0x20a0, 0x42b1),
   ("Nitrokey Pro", 0x20a0, 0x4108),
   ("Nitrokey 3", 0x20a0, 0x42b2),
   ("Nitrokey Start", 0x20a0, 0x4211),
   ("Yubikey 4/5", 0x1050, 0x0407),
   ("Yubikey NEO", 0x1050, 0x0116),
   ("Yubico YubiHSM", 0x1050, 0x0030),
   ("FSIJ Gnuk", 0x234b, 0x0000),
   ("GnuPG e.V.", 0x1209, 0x2440),
   ("Pico Default", 0xFEFF, 0xFCFD)]

/-- Dictionary lookup `KnownVendor.get_all()[name]`; `none` models the
`KeyError` on an absent name. -/
def resolveVendor (name : String) : Option (Nat × Nat) :=
  knownVendors.lookup name

/-- Whether a byte list is one complete TLV record: a tag byte, a
length byte, and exactly that many payload bytes. -/
def isRecord (r : List Nat) : Bool :=
  match r with
  | _ :: l :: payload => payload.length == l
  | _ => false

/-- The scanning loop of `recordTags` with explicit fuel. -/
def tagsLoop : Nat → List Nat → List Nat
  | 0, _ => []
  | fuel + 1, t :: l :: rest =>
    if l ≤ rest.length then t :: tagsLoop fuel (rest.drop l) else []
  | _ + 1, _ => []

/-- The tags of the complete TLV records at the front of a buffer,
scanned exactly the way `PhyData.parse` walks it. -/
def recordTags (bs : List Nat) : List Nat := tagsLoop bs.length bs

/-! ### Basic facts about the scanning loops -/

theorem parseLoop_nil (f : Nat) (o : PhyData) : parseLoop f o [] = o := by
  cases f <;> rfl

theorem parseLoop_singleton (f : Nat) (o : PhyData) (t : Nat) :
    parseLoop f o [t] = o := by
  cases f <;> rfl

theorem parseLoop_fuel (f1 : Nat) : ∀ (f2 : Nat) (o : PhyData) (data : List Nat),
    data.length ≤ f1 → data.length ≤ f2 → parseLoop f1 o data = parseLoop f2 o data := by
  induction f1 with
  | zero =>
    intro f2 o data h1 _
    have : data = [] := List.length_eq_zero.mp (Nat.le_zero.mp h1)
    subst this
    rw [parseLoop_nil, parseLoop_nil]
  | succ f ih =>
    intro f2 o data h1 h2
    match data with
    | [] => rw [parseLoop_nil, parseLoop_nil]
    | [t] => rw [parseLoop_singleton, parseLoop_singleton]
    | t :: l :: rest =>
      simp only [List.length_cons] at h1 h2
      obtain ⟨f2', rfl⟩ : ∃ k, f2 = k + 1 := ⟨f2 - 1, by omega⟩
      simp only [parseLoop]
      split_ifs with h
      · exact ih f2' _ _ (by simp [List.length_drop]; omega) (by simp [List.length_drop]; omega)
      · rfl

theorem parseGo_nil (o : PhyData) : parseGo o [] = o := rfl

theorem parseGo_singleton (o : PhyData) (t : Nat) : parseGo o [t] = o := rfl

theorem parseGo_cons (o : PhyData) (t l : Nat) (rest : List Nat)
    (h : l ≤ rest.length) :
    parseGo o (t :: l :: rest) = parseGo (step o t l (rest.take l)) (rest.drop l) := by
  show parseLoop (t :: l :: rest).length o (t :: l :: rest) = _
  simp only [List.length_cons, parseLoop, if_pos h]
  exact parseLoop_fuel _ _ _ _ (by simp [List.length_drop]; omega) (by simp [List.length_drop])

theorem parseGo_break (o : PhyData) (t l : Nat) (rest : List Nat)
    (h : rest.length < l) : parseGo o (t :: l :: rest) = o := by
  show parseLoop (t :: l :: rest).length o (t :: l :: rest) = _
  simp only [List.length_cons, parseLoop]
  rw [if_neg (by omega)]

theorem parseGo_record_append (o : PhyData) (t : Nat) (payload rest : List Nat) :
    parseGo o ((t :: payload.length :: payload) ++ rest) =
      parseGo (step o t payload.length payload) rest := by
  have h : payload.length ≤ (payload ++ rest).length := by simp
  calc parseGo o (t :: payload.length :: (payload ++ rest))
      = parseGo (step o t payload.length ((payload ++ rest).take payload.length))
          ((payload ++ rest).drop payload.length) := parseGo_cons _ _ _ _ h
    _ = parseGo (step o t payload.length payload) rest := by
        rw [List.take_left, List.drop_left]

theorem parseGo_record (o : PhyData) (t : Nat) (payload : List Nat) :
    parseGo o (t :: payload.length :: payload) = step o t payload.length payload := by
  have := parseGo_record_append o t payload []
  simpa [parseGo_nil] using this

theorem parseGo_take_incomplete (o : PhyData) (t : Nat) (payload : List Nat) (n : Nat)
    (hn : n < payload.length + 2) :
    parseGo o ((t :: payload.length :: payload).take n) = o := by
  match n with
  | 0 => rw [List.take_zero, parseGo_nil]
  | 1 => rw [List.take_succ_cons, List.take_zero, parseGo_singleton]
  | n + 2 =>
    rw [List.take_succ_cons, List.take_succ_cons]
    exact parseGo_break _ _ _ _ (by simp [List.length_take]; omega)

theorem tagsLoop_nil (f : Nat) : tagsLoop f [] = [] := by
  cases f <;> rfl

theorem tagsLoop_singleton (f t : Nat) : tagsLoop f [t] = [] := by
  cases f <;> rfl

theorem tagsLoop_fuel (f1 : Nat) : ∀ (f2 : Nat) (data : List Nat),
    data.length ≤ f1 → data.length ≤ f2 → tagsLoop f1 data = tagsLoop f2 data := by
  induction f1 with
  | zero =>
    intro f2 data h1 _
    have : data = [] := List.length_eq_zero.mp (Nat.le_zero.mp h1)
    subst this
    rw [tagsLoop_nil, tagsLoop_nil]
  | succ f ih =>
    intro f2 data h1 h2
    match data with
    | [] => rw [tagsLoop_nil, tagsLoop_nil]
    | [t] => rw [tagsLoop_singleton, tagsLoop_singleton]
    | t :: l :: rest =>
      simp only [List.length_cons] at h1 h2
      obtain ⟨f2', rfl⟩ : ∃ k, f2 = k + 1 := ⟨f2 - 1, by omega⟩
      simp only [tagsLoop]
      split_ifs with h
      · rw [ih f2' _ (by simp [List.length_drop]; omega) (by simp [List.length_drop]; omega)]
      · rfl

theorem recordTags_nil : recordTags [] = [] := rfl

theorem recordTags_record_append (t : Nat) (payload rest : List Nat) :
    recordTags ((t :: payload.length :: payload) ++ rest) = t :: recordTags rest := by
  show tagsLoop (t :: payload.length :: (payload ++ rest)).length
      (t :: payload.length :: (payload ++ rest)) = _
  simp only [List.length_cons, tagsLoop, List.length_append]
  rw [if_pos (by omega), List.drop_left]
  exact congrArg (t :: ·)
    (tagsLoop_fuel _ _ _ (by omega) (by omega))

/-! ### Facts about `step` and single records -/

theorem step_unhandled (o : PhyData) (t l : Nat) (payload : List Nat)
    (h : Handled t l = false) : step o t l payload = o := by
  simp only [Handled, Bool.or_eq_false_iff, decide_eq_false_iff_not] at h
  obtain ⟨⟨⟨⟨⟨⟨⟨⟨h1, h2⟩, h3⟩, h4⟩, h5⟩, h6⟩, h7⟩, h8⟩, h9⟩ := h
  simp only [step, if_neg h1, if_neg h2, if_neg h3, if_neg h4, if_neg h5, if_neg h6,
    if_neg h7, if_neg h8, if_neg h9]

/-! ### Big-endian integer round trips -/

theorem bytesToNat_u16be (x : Nat) : bytesToNat (u16be x) = x := by
  simp only [u16be, bytesToNat, List.foldl]
  omega

theorem bytesToNat_u32be (x : Nat) : bytesToNat (u32be x) = x := by
  simp only [u32be, bytesToNat, List.foldl]
  omega

/-! ### Bitwise helpers -/

theorem testBit_landNot (a b i : Nat) :
    (landNot a b).testBit i = (a.testBit i && !b.testBit i) := by
  exact Nat.testBit_bitwise (by simp) a b i

theorem landNot_zero_left (b : Nat) : landNot 0 b = 0 := by
  refine Nat.eq_of_testBit_eq fun i => ?_
  rw [testBit_landNot]
  simp

theorem lor_eq_self_of_testBit (a : Nat) (i : Nat) (h : a.testBit i = true) :
    a ||| 2 ^ i = a := by
  refine Nat.eq_of_testBit_eq fun j => ?_
  rw [Nat.testBit_lor]
  by_cases hij : i = j
  · subst hij; simp [h]
  · simp [Nat.testBit_two_pow_of_ne hij]

theorem landNot_eq_self_of_not_testBit (a : Nat) (i : Nat) (h : a.testBit i = false) :
    landNot a (2 ^ i) = a := by
  refine Nat.eq_of_testBit_eq fun j => ?_
  rw [testBit_landNot]
  by_cases hij : i = j
  · subst hij; simp [h]
  · simp [Nat.testBit_two_pow_of_ne hij]

/-! ### Prefix decomposition of the scan -/

theorem parseGo_records_take (rs : List (List Nat)) :
    ∀ (n : Nat) (o : PhyData), (∀ r ∈ rs, isRecord r = true) →
    ∃ rs1 rs2, rs = rs1 ++ rs2 ∧
      parseGo o ((rs.flatten).take n) = rs1.foldl parseGo o ∧
      (rs1.flatten).length ≤ n ∧
      (∀ r0, rs2.head? = some r0 → n < (rs1.flatten).length + r0.length) := by
  induction rs with
  | nil =>
    intro n o _
    exact ⟨[], [], rfl, by simp [parseGo_nil], by simp, by simp⟩
  | cons r rest ih =>
    intro n o hrs
    have hr : isRecord r = true := hrs r (by simp)
    match r, hr with
    | t :: l :: p, hr =>
      have hl : p.length = l := by simpa [isRecord] using hr
      subst hl
      by_cases hn : n < p.length + 2
      · refine ⟨[], (t :: p.length :: p) :: rest, rfl, ?_, by simp, ?_⟩
        · rw [List.flatten_cons,
            List.take_append_of_le_length (by simp [List.length_cons]; omega)]
          simpa using parseGo_take_incomplete o t p n hn
        · intro r0 h0
          simp only [List.head?_cons, Option.some.injEq] at h0
          subst h0
          simpa using hn
      · push_neg at hn
        obtain ⟨rs1', rs2', hsplit, heq, hlen, hmax⟩ :=
          ih (n - (p.length + 2)) (parseGo o (t :: p.length :: p))
            (fun r hr' => hrs r (by simp [hr']))
        refine ⟨(t :: p.length :: p) :: rs1', rs2', by simp [hsplit], ?_, ?_, ?_⟩
        · rw [List.flatten_cons, List.take_append_eq_append_take,
            List.take_of_length_le (by simp [List.length_cons]; omega)]
          have : (t :: p.length :: p).length = p.length + 2 := by simp
          rw [this, parseGo_record_append, List.foldl_cons, ← parseGo_record o t p]
          exact heq
        · simp only [List.flatten_cons, List.length_append, List.length_cons]
          omega
        · intro r0 h0
          have := hmax r0 h0
          simp only [List.flatten_cons, List.length_append, List.length_cons]
          omega

/-! ### The `vidpid` store produced by the scan -/

theorem step_vidpid (o : PhyData) (t l : Nat) (payload : List Nat) :
    (step o t l payload).vidpid = o.vidpid ∨
      ((step o t l payload).vidpid = some ⟨false, payload⟩ ∧ l = 4) := by
  unfold step
  split_ifs with h1 h2 h3 h4 h5 h6 h7 h8 h9
  · exact Or.inr ⟨rfl, h1.2⟩
  all_goals exact Or.inl rfl

theorem parseLoop_vidpid (f : Nat) : ∀ (o : PhyData) (data : List Nat),
    (∀ s, o.vidpid = some s → s.mutable = false ∧ s.data.length = 4) →
    ∀ s, (parseLoop f o data).vidpid = some s →
      s.mutable = false ∧ s.data.length = 4 := by
  induction f with
  | zero => intro o data h s hs; exact h s hs
  | succ f ih =>
    intro o data h s hs
    match data with
    | [] => exact h s hs
    | [t] => exact h s hs
    | t :: l :: rest =>
      simp only [parseLoop] at hs
      split_ifs at hs with hguard
      · refine ih _ _ ?_ s hs
        intro s' hs'
        rcases step_vidpid o t l (rest.take l) with heq | ⟨heq, hl4⟩
        · exact h s' (by rw [← heq]; exact hs')
        · rw [heq] at hs'
          cases hs'
          refine ⟨rfl, ?_⟩
          simp [List.length_take]
          omega
      · exact h s hs

theorem defaultItf_vidpid (o : PhyData) : (defaultItf o).vidpid = o.vidpid := by
  unfold defaultItf
  split <;> rfl

theorem parse_vidpid_inv (data : List Nat) (s : ByteStore)
    (h : (parse data).vidpid = some s) : s.mutable = false ∧ s.data.length = 4 := by
  rw [parse, defaultItf_vidpid] at h
  exact parseLoop_vidpid data.length phyEmpty data (by intro s' hs'; cases hs') s h

/-! ### Chunk-level helper lemmas -/

theorem parseGo_rec_append (o : PhyData) (t l : Nat) (payload rest : List Nat)
    (hp : payload.length = l) :
    parseGo o ((t :: l :: payload) ++ rest) = parseGo (step o t l payload) rest := by
  subst hp
  exact parseGo_record_append o t payload rest

theorem recordTags_rec_append (t l : Nat) (payload rest : List Nat)
    (hp : payload.length = l) :
    recordTags ((t :: l :: payload) ++ rest) = t :: recordTags rest := by
  subst hp
  exact recordTags_record_append t payload rest

theorem serialize_eq_of_chunks (x y : PhyData)
    (h0 : vidpidChunk x = vidpidChunk y) (h4 : ledGpioChunk x = ledGpioChunk y)
    (h5 : ledBrightnessChunk x = ledBrightnessChunk y) (h6 : optsChunk x = optsChunk y)
    (h8 : upBtnChunk x = upBtnChunk y) (h9 : productChunk x = productChunk y)
    (hA : curvesChunk x = curvesChunk y) (hB : itfChunk x = itfChunk y)
    (hC : driverChunk x = driverChunk y) : serialize x = serialize y := by
  unfold serialize
  rw [h0, h4, h5, h6, h8, h9, hA, hB, hC]

theorem lookup_eq_none_of_keys_ne {α β : Type} [BEq α] [LawfulBEq α]
    (l : List (α × β)) (a : α) (h : ∀ e ∈ l, e.1 ≠ a) : l.lookup a = none := by
  induction l with
  | nil => rfl
  | cons e es ih =>
    obtain ⟨k, v⟩ := e
    have hk : (a == k) = false :=
      beq_eq_false_iff_ne.mpr fun heq => h (k, v) (by simp) heq.symm
    simp only [List.lookup, hk]
    exact ih fun e he => h e (by simp [he])

theorem takeWhile_append_nul (p : List Nat) (h : ∀ a ∈ p, a ≠ 0) :
    (p ++ [0]).takeWhile (fun b => b != 0) = p := by
  induction p with
  | nil => simp [List.takeWhile]
  | cons a as ih =>
    have ha : (a != 0) = true := by
      simpa using h a (by simp)
    simp only [List.cons_append, List.takeWhile_cons, ha, if_true]
    rw [ih fun e he => h e (by simp [he])]

/-! ### `recordTags` over the serialisation chunks -/

theorem recordTags_vidpidChunk (x : PhyData) (rest : List Nat)
    (hv : ∀ s, x.vidpid = some s → s.data ≠ [] → 4 ≤ s.data.length) :
    recordTags (vidpidChunk x ++ rest) =
      (if vidpidTruthy x then [0] else []) ++ recordTags rest := by
  unfold vidpidChunk vidpidTruthy
  cases hx : x.vidpid with
  | none => simp
  | some s =>
    cases hbe : s.data.isEmpty with
    | true =>
      have hnil : s.data = [] := List.isEmpty_iff.mp hbe
      simp [hnil]
    | false =>
      have hne : s.data ≠ [] := fun hnil => by simp [hnil] at hbe
      have h4 : (s.data.take 4).length = 4 := by
        have := hv s hx hne
        simp [List.length_take]
        omega
      simp only [hbe, Bool.false_eq_true, if_false, Bool.not_false, if_true]
      rw [recordTags_rec_append 0 4 (s.data.take 4) rest h4]
      simp

theorem recordTags_ledGpioChunk (x : PhyData) (rest : List Nat) :
    recordTags (ledGpioChunk x ++ rest) =
      (if x.led_gpio.isSome then [4] else []) ++ recordTags rest := by
  unfold ledGpioChunk
  cases x.led_gpio with
  | none => simp
  | some g =>
    show recordTags ((4 :: 1 :: [g % 256]) ++ rest) = [4] ++ recordTags rest
    rw [recordTags_rec_append 4 1 [g % 256] rest rfl]
    rfl

theorem recordTags_ledBrightnessChunk (x : PhyData) (rest : List Nat) :
    recordTags (ledBrightnessChunk x ++ rest) =
      (if x.led_brightness.isSome then [5] else []) ++ recordTags rest := by
  unfold ledBrightnessChunk
  cases x.led_brightness with
  | none => simp
  | some b =>
    show recordTags ((5 :: 1 :: [b % 256]) ++ rest) = [5] ++ recordTags rest
    rw [recordTags_rec_append 5 1 [b % 256] rest rfl]
    rfl

theorem recordTags_optsChunk (x : PhyData) (c : List Nat) (rest : List Nat)
    (h : optsChunk x = some c) :
    recordTags (c ++ rest) = 6 :: recordTags rest := by
  unfold optsChunk at h
  split_ifs at h
  cases h
  exact recordTags_rec_append 6 2 (u16be x.opts) rest rfl

theorem recordTags_upBtnChunk (x : PhyData) (rest : List Nat) :
    recordTags (upBtnChunk x ++ rest) =
      (if x.up_btn.isSome then [8] else []) ++ recordTags rest := by
  unfold upBtnChunk
  cases x.up_btn with
  | none => simp
  | some u =>
    show recordTags ((8 :: 1 :: [u % 256]) ++ rest) = [8] ++ recordTags rest
    rw [recordTags_rec_append 8 1 [u % 256] rest rfl]
    rfl

theorem recordTags_productChunk (x : PhyData) (c : List Nat) (rest : List Nat)
    (h : productChunk x = some c) :
    recordTags (c ++ rest) =
      (if productTruthy x then [9] else []) ++ recordTags rest := by
  cases hx : x.usb_product with
  | none =>
    simp only [productChunk, hx] at h
    cases h
    simp [productTruthy, hx]
  | some p =>
    simp only [productChunk, hx] at h
    split_ifs at h with h1 h2
    · cases h
      simp [productTruthy, hx, h1]
    · cases h
      rw [recordTags_rec_append 9 ((asciiIgnore p).length + 1) (asciiIgnore p ++ [0]) rest
        (by simp)]
      simp [productTruthy, hx, h1]

theorem recordTags_curvesChunk (x : PhyData) (c : List Nat) (rest : List Nat)
    (h : curvesChunk x = some c) :
    recordTags (c ++ rest) =
      (if x.enabled_curves.isSome then [10] else []) ++ recordTags rest := by
  cases hx : x.enabled_curves with
  | none =>
    simp only [curvesChunk, hx] at h
    cases h
    simp
  | some cv =>
    simp only [curvesChunk, hx] at h
    split_ifs at h
    · cases h
      rw [recordTags_rec_append 10 4 (u32be cv) rest rfl]
      rfl

theorem recordTags_itfChunk (x : PhyData) (rest : List Nat) :
    recordTags (itfChunk x ++ rest) =
      (if x.enabled_usb_itf.isSome then [11] else []) ++ recordTags rest := by
  unfold itfChunk
  cases x.enabled_usb_itf with
  | none => simp
  | some i =>
    show recordTags ((11 :: 1 :: [i % 256]) ++ rest) = [11] ++ recordTags rest
    rw [recordTags_rec_append 11 1 [i % 256] rest rfl]
    rfl

theorem recordTags_driverChunk (x : PhyData) (rest : List Nat) :
    recordTags (driverChunk x ++ rest) =
      (if x.led_driver.isSome then [12] else []) ++ recordTags rest := by
  unfold driverChunk
  cases x.led_driver with
  | none => simp
  | some d =>
    show recordTags ((12 :: 1 :: [d % 256]) ++ rest) = [12] ++ recordTags rest
    rw [recordTags_rec_append 12 1 [d % 256] rest rfl]
    rfl

/-! ### Claim theorems -/

/-- Claim C4: decoding the empty byte sequence yields a config in which
`enabled_usb_itf` is set to the all-four-flags default
`CCID | WCID | HID | KB = 0xF` and every other field is unset (`opts`
staying at its non-optional default `0`). -/
theorem parse_empty_default :
    parse [] =
      { vidpid := none, led_gpio := none, led_brightness := none, opts := 0,
        up_btn := none, usb_product := none, enabled_curves := none,
        enabled_usb_itf := some 15, led_driver := none } := by
  decide

/-- Claim C3: `parse` is total by construction, and decoding the
`n`-byte prefix of a buffer made of complete TLV records applies
exactly the maximal leading list `rs1` of records that fit entirely
within the prefix — the trailing partial record (if any) contributes
nothing. -/
theorem parse_truncation_tolerance (rs : List (List Nat))
    (hrs : ∀ r ∈ rs, isRecord r = true) (n : Nat) :
    ∃ rs1 rs2, rs = rs1 ++ rs2 ∧
      parse ((rs.flatten).take n) = defaultItf (rs1.foldl parseGo phyEmpty) ∧
      (rs1.flatten).length ≤ n ∧
      (∀ r0, rs2.head? = some r0 → n < (rs1.flatten).length + r0.length) := by
  obtain ⟨rs1, rs2, h1, h2, h3, h4⟩ := parseGo_records_take rs n phyEmpty hrs
  exact ⟨rs1, rs2, h1, by rw [parse, h2], h3, h4⟩

/-- Witness for C3: the 4-byte prefix of a 6-byte two-record buffer
decodes exactly the first record. -/
theorem parse_truncation_tolerance_witness :
    ∃ rs1 rs2, ([[4, 1, 7], [5, 1, 9]] : List (List Nat)) = rs1 ++ rs2 ∧
      parse ((([[4, 1, 7], [5, 1, 9]] : List (List Nat)).flatten).take 4) =
        defaultItf (rs1.foldl parseGo phyEmpty) ∧
      (rs1.flatten).length ≤ 4 ∧
      (∀ r0, rs2.head? = some r0 → 4 < (rs1.flatten).length + r0.length) :=
  parse_truncation_tolerance [[4, 1, 7], [5, 1, 9]] (by decide) 4

/-- Claim C6: a record whose tag is unknown, or whose length byte does
not match the recognised width for its tag, is skipped over exactly
`length` payload bytes without populating any field, so the rest of
the buffer (in particular any following valid record) decodes exactly
as if the skipped record were absent. -/
theorem parse_skips_unrecognised (t l : Nat) (payload rest : List Nat)
    (hp : payload.length = l) (hun : Handled t l = false) :
    parse (t :: l :: (payload ++ rest)) = parse rest := by
  subst hp
  show parse ((t :: payload.length :: payload) ++ rest) = parse rest
  rw [parse, parse, parseGo_record_append, step_unhandled _ _ _ _ hun]

/-- Witness for C6: an unknown tag `0xFF` record followed by a valid
LED-GPIO record decodes like the LED-GPIO record alone. -/
theorem parse_skips_unrecognised_witness :
    parse [255, 1, 0, 4, 1, 7] = parse [4, 1, 7] :=
  parse_skips_unrecognised 255 1 [0] [4, 1, 7] rfl (by decide)

/-- Claim C8: resolving the name "Yubikey 4/5" in the known-vendor
registry yields `(0x1050, 0x0407)`, and resolving any name that is not
a key of the registry yields `none` (the dictionary `KeyError`), never
a default or zeroed pair. -/
theorem vendor_resolution :
    resolveVendor "Yubikey 4/5" = some (0x1050, 0x0407) ∧
    ∀ name, (∀ e ∈ knownVendors, e.1 ≠ name) → resolveVendor name = none :=
  ⟨by rfl, fun name h => lookup_eq_none_of_keys_ne knownVendors name h⟩

/-- Witness for C8: the Yubikey entry resolves, and the absent name
"Acme" resolves to `none`. -/
theorem vendor_resolution_witness :
    resolveVendor "Yubikey 4/5" = some (0x1050, 0x0407) ∧
    resolveVendor "Acme" = none :=
  ⟨vendor_resolution.1, vendor_resolution.2 "Acme" (by decide)⟩

/-- Claim C10: `set_curve c false` on a config whose `enabled_curves`
is unset first materialises the field as `some 0`, and `serialize`
afterwards emits the 4-byte all-zero curves record where before the
call it emitted no curves bytes at all. -/
theorem set_curve_materialises (x : PhyData) (c : Nat)
    (h : x.enabled_curves = none) :
    (set_curve x c false).enabled_curves = some 0 ∧
    curvesChunk x = some [] ∧
    curvesChunk (set_curve x c false) = some [10, 4, 0, 0, 0, 0] := by
  have h0 : (set_curve x c false).enabled_curves = some 0 := by
    simp [set_curve, h, landNot_zero_left]
  refine ⟨h0, by simp [curvesChunk, h], ?_⟩
  simp [curvesChunk, h0, u32be]

/-- Witness for C10 at the empty config and the `SECP256K1` bit. -/
theorem set_curve_materialises_witness :
    (set_curve phyEmpty 8 false).enabled_curves = some 0 ∧
    curvesChunk phyEmpty = some [] ∧
    curvesChunk (set_curve phyEmpty 8 false) = some [10, 4, 0, 0, 0, 0] :=
  set_curve_materialises phyEmpty 8 rfl

/-- Claim C7: for a single-bit flag `2 ^ i`, setting it when already
set or clearing it when already clear leaves the `opts` bitmask
unchanged, and either call leaves every bit `j ≠ i` undisturbed; the
same holds for `set_curve` on a present `enabled_curves` bitmask. -/
theorem flag_idempotence_independence (x : PhyData) (i j c : Nat)
    (hij : j ≠ i) (hc : x.enabled_curves = some c) :
    (x.opts.testBit i = true → (setOption x (2 ^ i) true).opts = x.opts) ∧
    (x.opts.testBit i = false → (setOption x (2 ^ i) false).opts = x.opts) ∧
    (∀ e : Bool, (setOption x (2 ^ i) e).opts.testBit j = x.opts.testBit j) ∧
    (c.testBit i = true → (set_curve x (2 ^ i) true).enabled_curves = some c) ∧
    (c.testBit i = false → (set_curve x (2 ^ i) false).enabled_curves = some c) ∧
    (∀ e : Bool, ∃ c2, (set_curve x (2 ^ i) e).enabled_curves = some c2 ∧
      c2.testBit j = c.testBit j) := by
  have hpow : (2 ^ i).testBit j = false := Nat.testBit_two_pow_of_ne (Ne.symm hij)
  refine ⟨?_, ?_, ?_, ?_, ?_, ?_⟩
  · intro h
    simp [setOption, lor_eq_self_of_testBit _ _ h]
  · intro h
    simp [setOption, landNot_eq_self_of_not_testBit _ _ h]
  · intro e
    cases e
    · simp [setOption, testBit_landNot, hpow]
    · simp [setOption, Nat.testBit_lor, hpow]
  · intro h
    simp [set_curve, hc, lor_eq_self_of_testBit _ _ h]
  · intro h
    simp [set_curve, hc, landNot_eq_self_of_not_testBit _ _ h]
  · intro e
    cases e
    · exact ⟨landNot c (2 ^ i), by simp [set_curve, hc],
        by simp [testBit_landNot, hpow]⟩
    · exact ⟨c ||| 2 ^ i, by simp [set_curve, hc],
        by simp [Nat.testBit_lor, hpow]⟩

/-- Witness for C7 at `opts = 5`, curves `= 2`, flag bit 0, other bit 1. -/
theorem flag_idempotence_independence_witness :
    (setOption ⟨none, none, none, 5, none, none, some 2, none, none⟩ 1 true).opts = 5 ∧
    (set_curve ⟨none, none, none, 5, none, none, some 2, none, none⟩ 1 false).enabled_curves
      = some 2 := by
  have h := flag_idempotence_independence
    ⟨none, none, none, 5, none, none, some 2, none, none⟩ 0 1 2 (by decide) rfl
  exact ⟨h.1 (by decide), h.2.2.2.2.1 (by decide)⟩

/-- Claim C9: a config obtained from `parse` of a buffer containing a
VID/PID record backs `vidpid` with an immutable `bytes` slice, so the
`vid`/`pid` property setters raise (`none`) instead of updating;
`set_vidpid` (fresh mutable 4-byte buffer) succeeds, and after `copy`
(which rebuilds the store as a mutable `bytearray`) the setters
succeed as well. -/
theorem parse_vidpid_immutable (buf : List Nat) (s : ByteStore) (v w : Nat)
    (h : (parse buf).vidpid = some s) :
    s.mutable = false ∧
    setVid (parse buf) v = none ∧
    setPid (parse buf) w = none ∧
    (set_vidpid (parse buf) v w).isSome = true ∧
    (copy (parse buf)).vidpid = some ⟨true, s.data⟩ ∧
    (setVid (copy (parse buf)) v).isSome = true := by
  obtain ⟨hm, hlen⟩ := parse_vidpid_inv buf s h
  have hne : s.data ≠ [] := by
    intro h0
    rw [h0] at hlen
    simp at hlen
  have hbe : s.data.isEmpty = false := by
    cases hd : s.data.isEmpty
    · rfl
    · exact absurd (List.isEmpty_iff.mp hd) hne
  have htr : vidpidTruthy (parse buf) = true := by
    simp [vidpidTruthy, h, hbe]
  refine ⟨hm, ?_, ?_, ?_, ?_, ?_⟩
  · simp [setVid, htr, h, hm]
  · simp [setPid, htr, h, hm]
  · simp [set_vidpid, setVid, setPid, vidpidTruthy]
  · simp [copy, htr, h]
  · simp [setVid, vidpidTruthy, copy, htr, h, hbe]

/-- Witness for C9 on the buffer holding one VID/PID record. -/
theorem parse_vidpid_immutable_witness :
    (⟨false, [1, 2, 3, 4]⟩ : ByteStore).mutable = false ∧
    setVid (parse [0, 4, 1, 2, 3, 4]) 5 = none ∧
    setPid (parse [0, 4, 1, 2, 3, 4]) 6 = none ∧
    (set_vidpid (parse [0, 4, 1, 2, 3, 4]) 5 6).isSome = true ∧
    (copy (parse [0, 4, 1, 2, 3, 4])).vidpid = some ⟨true, [1, 2, 3, 4]⟩ ∧
    (setVid (copy (parse [0, 4, 1, 2, 3, 4])) 5).isSome = true :=
  parse_vidpid_immutable [0, 4, 1, 2, 3, 4] ⟨false, [1, 2, 3, 4]⟩ 5 6 (by decide)

/-- Counterexample to C2: at `opts = 0x10000` (a 17-bit value in the
16-bit options field) `serialize` does not mask — `int.to_bytes(2)`
raises `OverflowError`, modelled by `none`. -/
theorem serialize_raises_counterexample :
    serialize ⟨none, none, none, 65536, none, none, none, none, none⟩ = none := by
  decide

/-- Claim C2 (amended): `serialize` masks the five 8-bit scalar fields
to their low 8 bits, but it does have failure paths — it succeeds
exactly when `opts` fits 16 bits, `enabled_curves` (when present) fits
32 bits, and the encoded `usb_product` length byte fits in a byte;
outside these bounds the Python code raises instead of masking. -/
theorem serialize_masking_and_failure (x : PhyData) (g b u i d : Nat) :
    ((serialize x).isSome = true ↔
      (x.opts < 65536 ∧
       (∀ c, x.enabled_curves = some c → c < 4294967296) ∧
       (∀ s, x.usb_product = some s → s ≠ [] → (asciiIgnore s).length + 1 ≤ 255))) ∧
    serialize { x with led_gpio := some g } =
      serialize { x with led_gpio := some (g % 256) } ∧
    serialize { x with led_brightness := some b } =
      serialize { x with led_brightness := some (b % 256) } ∧
    serialize { x with up_btn := some u } =
      serialize { x with up_btn := some (u % 256) } ∧
    serialize { x with enabled_usb_itf := some i } =
      serialize { x with enabled_usb_itf := some (i % 256) } ∧
    serialize { x with led_driver := some d } =
      serialize { x with led_driver := some (d % 256) } := by
  have hiff : (serialize x).isSome = true ↔
      ((optsChunk x).isSome = true ∧ (productChunk x).isSome = true ∧
        (curvesChunk x).isSome = true) := by
    cases h6 : optsChunk x <;> cases h9 : productChunk x <;> cases hA : curvesChunk x <;>
      simp [serialize, h6, h9, hA]
  have c6 : (optsChunk x).isSome = true ↔ x.opts < 65536 := by
    unfold optsChunk
    split_ifs with hl <;> simp [hl]
  have c9 : (productChunk x).isSome = true ↔
      (∀ s, x.usb_product = some s → s ≠ [] → (asciiIgnore s).length + 1 ≤ 255) := by
    cases hx : x.usb_product with
    | none => simp [productChunk, hx]
    | some p =>
      simp only [productChunk, hx]
      cases hbe : p.isEmpty with
      | true =>
        have hp : p = [] := List.isEmpty_iff.mp hbe
        subst hp
        simp
      | false =>
        have hne : p ≠ [] := fun h0 => by simp [h0] at hbe
        rw [if_neg (by simp [hbe])]
        split_ifs with hl
        · simp only [Option.isSome_some, true_iff]
          intro s heq _
          cases heq
          exact hl
        · simp only [Option.isSome_none, Bool.false_eq_true, false_iff]
          intro hall
          exact hl (hall p rfl hne)
  have cA : (curvesChunk x).isSome = true ↔
      (∀ c, x.enabled_curves = some c → c < 4294967296) := by
    cases hx : x.enabled_curves with
    | none => simp [curvesChunk, hx]
    | some cv =>
      simp only [curvesChunk, hx]
      split_ifs with hl
      · simp only [Option.isSome_some, true_iff]
        intro c heq
        cases heq
        exact hl
      · simp only [Option.isSome_none, Bool.false_eq_true, false_iff]
        intro hall
        exact hl (hall cv rfl)
  refine ⟨hiff.trans (by rw [c6, c9, cA]; tauto), ?_, ?_, ?_, ?_, ?_⟩
  · exact serialize_eq_of_chunks _ _ rfl
      (by simp [ledGpioChunk, Nat.mod_mod_of_dvd g (dvd_refl 256)]) rfl rfl rfl rfl rfl rfl rfl
  · exact serialize_eq_of_chunks _ _ rfl rfl
      (by simp [ledBrightnessChunk, Nat.mod_mod_of_dvd b (dvd_refl 256)]) rfl rfl rfl rfl rfl rfl
  · exact serialize_eq_of_chunks _ _ rfl rfl rfl rfl
      (by simp [upBtnChunk, Nat.mod_mod_of_dvd u (dvd_refl 256)]) rfl rfl rfl rfl
  · exact serialize_eq_of_chunks _ _ rfl rfl rfl rfl rfl rfl rfl
      (by simp [itfChunk, Nat.mod_mod_of_dvd i (dvd_refl 256)]) rfl
  · exact serialize_eq_of_chunks _ _ rfl rfl rfl rfl rfl rfl rfl rfl
      (by simp [driverChunk, Nat.mod_mod_of_dvd d (dvd_refl 256)])

/-- Witness for C2: a config with in-range fields serialises, and an
out-of-range LED GPIO of 300 encodes identically to its low byte 44. -/
theorem serialize_masking_and_failure_witness :
    (serialize ⟨none, none, none, 7, none, none, none, none, none⟩).isSome = true ∧
    serialize { phyEmpty with led_gpio := some 300 } =
      serialize { phyEmpty with led_gpio := some 44 } := by
  have h := serialize_masking_and_failure
    ⟨none, none, none, 7, none, none, none, none, none⟩ 300 0 0 0 0
  have h2 := serialize_masking_and_failure phyEmpty 300 0 0 0 0
  exact ⟨h.1.mpr ⟨by decide, fun c hc => Option.noConfusion hc,
    fun s hs => Option.noConfusion hs⟩, h2.2.1⟩

/-- Counterexample to C5: a present-but-empty `usb_product` (producible
by `parse` from the record `[9, 1, 0]`) is falsy, so `serialize` emits
no product record for it; and a present 1-byte `vidpid` store is
emitted with a length byte 4 that swallows the options record. -/
theorem serialize_emit_counterexample :
    (serialize ⟨none, none, none, 0, none, some [], none, none, none⟩ = some [6, 2, 0, 0] ∧
      recordTags [6, 2, 0, 0] = [6]) ∧
    (serialize ⟨some ⟨true, [7]⟩, none, none, 0, none, none, none, none, none⟩ =
        some [0, 4, 7, 6, 2, 0, 0] ∧
      recordTags [0, 4, 7, 6, 2, 0, 0] = [0]) := by
  decide

/-- Claim C5 (amended): when `serialize` succeeds on a config whose
`vidpid` store, if present and non-empty, holds at least 4 bytes, the
output is a TLV stream containing one record per field exactly when
the field is present and (for the two sequence-valued fields `vidpid`
and `usb_product`) non-empty, in canonical tag order, with `options`
(tag 6) always emitted. -/
theorem serialize_emit_rule (x : PhyData) (bs : List Nat)
    (hser : serialize x = some bs)
    (hv : ∀ s, x.vidpid = some s → s.data ≠ [] → 4 ≤ s.data.length) :
    recordTags bs =
      (if vidpidTruthy x then [0] else []) ++
      (if x.led_gpio.isSome then [4] else []) ++
      (if x.led_brightness.isSome then [5] else []) ++
      [6] ++
      (if x.up_btn.isSome then [8] else []) ++
      (if productTruthy x then [9] else []) ++
      (if x.enabled_curves.isSome then [10] else []) ++
      (if x.enabled_usb_itf.isSome then [11] else []) ++
      (if x.led_driver.isSome then [12] else []) := by
  cases h6 : optsChunk x with
  | none => simp [serialize, h6] at hser
  | some m6 =>
  cases h9 : productChunk x with
  | none => simp [serialize, h6, h9] at hser
  | some m9 =>
  cases hA : curvesChunk x with
  | none => simp [serialize, h6, h9, hA] at hser
  | some mA =>
  have hbs : vidpidChunk x ++ (ledGpioChunk x ++ (ledBrightnessChunk x ++ (m6 ++
      (upBtnChunk x ++ (m9 ++ (mA ++ (itfChunk x ++ driverChunk x))))))) = bs := by
    simpa [serialize, h6, h9, hA] using hser
  rw [← hbs, recordTags_vidpidChunk x _ hv, recordTags_ledGpioChunk,
    recordTags_ledBrightnessChunk, recordTags_optsChunk x m6 _ h6,
    recordTags_upBtnChunk, recordTags_productChunk x m9 _ h9,
    recordTags_curvesChunk x mA _ hA, recordTags_itfChunk,
    show driverChunk x = driverChunk x ++ [] by simp, recordTags_driverChunk]
  simp [recordTags_nil]

/-- Witness for C5 on a fully-populated config. -/
theorem serialize_emit_rule_witness :
    recordTags [0, 4, 1, 2, 3, 4, 4, 1, 1, 5, 1, 2, 6, 2, 0, 3, 8, 1, 4,
        9, 2, 65, 0, 10, 4, 0, 0, 0, 5, 11, 1, 6, 12, 1, 7] =
      [0, 4, 5, 6, 8, 9, 10, 11, 12] :=
  serialize_emit_rule
    ⟨some ⟨true, [1, 2, 3, 4]⟩, some 1, some 2, 3, some 4, some [65], some 5,
      some 6, some 7⟩
    [0, 4, 1, 2, 3, 4, 4, 1, 1, 5, 1, 2, 6, 2, 0, 3, 8, 1, 4,
      9, 2, 65, 0, 10, 4, 0, 0, 0, 5, 11, 1, 6, 12, 1, 7]
    (by decide) (fun s hs _ => by cases hs; decide)

/-- Counterexample to C1: a fully-populated config in which every
integer field fits its width but whose product string is the single
NUL character; decoding the encoding yields the empty product string,
so the round trip fails. -/
theorem roundtrip_counterexample :
    serialize ⟨some ⟨true, [1, 2, 3, 4]⟩, some 1, some 2, 3, some 4, some [0],
        some 5, some 6, some 7⟩ =
      some [0, 4, 1, 2, 3, 4, 4, 1, 1, 5, 1, 2, 6, 2, 0, 3, 8, 1, 4, 9, 2, 0, 0,
        10, 4, 0, 0, 0, 5, 11, 1, 6, 12, 1, 7] ∧
    ¬ phyEq
      (parse [0, 4, 1, 2, 3, 4, 4, 1, 1, 5, 1, 2, 6, 2, 0, 3, 8, 1, 4, 9, 2, 0, 0,
        10, 4, 0, 0, 0, 5, 11, 1, 6, 12, 1, 7])
      ⟨some ⟨true, [1, 2, 3, 4]⟩, some 1, some 2, 3, some 4, some [0], some 5,
        some 6, some 7⟩ := by
  decide

/-- Claim C1 (amended): for a config in which every field is populated,
every integer field fits its declared width, the `vidpid` store holds
exactly 4 bytes, and the product string is a non-empty NUL-free ASCII
string of at most 254 characters, decoding the encoding yields a config
structurally equal (`__eq__`) to the original. -/
theorem serialize_parse_roundtrip (x : PhyData) (s : ByteStore)
    (g b u : Nat) (p : List Nat) (c i d : Nat)
    (hv : x.vidpid = some s) (hs4 : s.data.length = 4)
    (hg : x.led_gpio = some g) (hg8 : g < 256)
    (hb : x.led_brightness = some b) (hb8 : b < 256)
    (ho : x.opts < 65536)
    (hu : x.up_btn = some u) (hu8 : u < 256)
    (hp : x.usb_product = some p) (hpne : p ≠ [])
    (hpa : ∀ a ∈ p, a < 128) (hpz : ∀ a ∈ p, a ≠ 0) (hpl : p.length ≤ 254)
    (hc : x.enabled_curves = some c) (hc32 : c < 4294967296)
    (hi : x.enabled_usb_itf = some i) (hi8 : i < 256)
    (hd : x.led_driver = some d) (hd8 : d < 256) :
    ∃ bs, serialize x = some bs ∧ phyEq (parse bs) x := by
  have henc : asciiIgnore p = p :=
    List.filter_eq_self.mpr fun a ha => by simpa using hpa a ha
  have hpbe : p.isEmpty = false := by
    cases hq : p.isEmpty
    · rfl
    · exact absurd (List.isEmpty_iff.mp hq) hpne
  have hdbe : s.data.isEmpty = false := by
    cases hq : s.data.isEmpty
    · rfl
    · have := List.isEmpty_iff.mp hq
      rw [this] at hs4
      simp at hs4
  have e0 : vidpidChunk x = 0 :: 4 :: s.data := by
    simp only [vidpidChunk, hv, hdbe, Bool.false_eq_true, if_false]
    rw [List.take_of_length_le (by rw [hs4])]
  have e4 : ledGpioChunk x = [4, 1, g] := by
    simp [ledGpioChunk, hg, Nat.mod_eq_of_lt hg8]
  have e5 : ledBrightnessChunk x = [5, 1, b] := by
    simp [ledBrightnessChunk, hb, Nat.mod_eq_of_lt hb8]
  have e6 : optsChunk x = some (6 :: 2 :: u16be x.opts) := by
    simp [optsChunk, ho]
  have e8 : upBtnChunk x = [8, 1, u] := by
    simp [upBtnChunk, hu, Nat.mod_eq_of_lt hu8]
  have e9 : productChunk x = some (9 :: (p.length + 1) :: (p ++ [0])) := by
    simp only [productChunk, hp, hpbe, Bool.false_eq_true, if_false, henc]
    rw [if_pos (by omega)]
  have eA : curvesChunk x = some (10 :: 4 :: u32be c) := by
    simp [curvesChunk, hc, hc32]
  have eB : itfChunk x = [11, 1, i] := by
    simp [itfChunk, hi, Nat.mod_eq_of_lt hi8]
  have eC : driverChunk x = [12, 1, d] := by
    simp [driverChunk, hd, Nat.mod_eq_of_lt hd8]
  refine ⟨(0 :: 4 :: s.data) ++ ([4, 1, g] ++ ([5, 1, b] ++
      ((6 :: 2 :: u16be x.opts) ++ ([8, 1, u] ++
      ((9 :: (p.length + 1) :: (p ++ [0])) ++
      ((10 :: 4 :: u32be c) ++ ([11, 1, i] ++ [12, 1, d]))))))), ?_, ?_⟩
  · unfold serialize
    rw [e6, e9, eA, e0, e4, e5, e8, eB, eC]
    simp [List.append_assoc]
  · rw [parse]
    rw [parseGo_rec_append _ 0 4 s.data _ hs4]
    rw [parseGo_rec_append _ 4 1 [g] _ rfl]
    rw [parseGo_rec_append _ 5 1 [b] _ rfl]
    rw [parseGo_rec_append _ 6 2 (u16be x.opts) _ rfl]
    rw [parseGo_rec_append _ 8 1 [u] _ rfl]
    rw [parseGo_rec_append _ 9 (p.length + 1) (p ++ [0]) _ (by simp)]
    rw [parseGo_rec_append _ 10 4 (u32be c) _ rfl]
    rw [parseGo_rec_append _ 11 1 [i] _ rfl]
    rw [show ([12, 1, d] : List Nat) = (12 :: 1 :: [d]) ++ [] by simp]
    rw [parseGo_rec_append _ 12 1 [d] _ rfl, parseGo_nil]
    simp [phyEq, step, defaultItf, hv, hg, hb, hu, hp, hc, hi, hd,
      bytesToNat_u16be, bytesToNat_u32be, decodeProduct,
      takeWhile_append_nul p hpz, henc]

/-- Witness for C1 on a concrete fully-populated config with product
string "AB". -/
theorem serialize_parse_roundtrip_witness :
    ∃ bs, serialize ⟨some ⟨true, [1, 2, 3, 4]⟩, some 1, some 2, 3, some 4,
        some [65, 66], some 5, some 6, some 7⟩ = some bs ∧
      phyEq (parse bs)
        ⟨some ⟨true, [1, 2, 3, 4]⟩, some 1, some 2, 3, some 4, some [65, 66],
          some 5, some 6, some 7⟩ :=
  serialize_parse_roundtrip _ ⟨true, [1, 2, 3, 4]⟩ 1 2 4 [65, 66] 5 6 7
    rfl (by decide) rfl (by decide) rfl (by decide) (by decide) rfl (by decide)
    rfl (by decide) (by decide) (by decide) (by decide) rfl (by decide) rfl
    (by decide) rfl (by decide)
